import Mathlib

/-!
# gormzerolog: the gorm logging adapter over zerolog

A shallow embedding of `logger.go`: the adapter `logger` with its four logging
operations, and the capture-only `traceRecorder`.

The Go standard library and zerolog are modelled only as far as `logger.go`
calls them:

* `time`: instants are integers (nanoseconds), `time.Duration` is an integer
  number of nanoseconds, `Time.Sub` saturates at the ends of the int64 range,
  `Duration.String` is the standard library's formatting algorithm;
* `errors`: an error value has an identity, may have an `Is` method, and may
  unwrap to one error (`Unwrap() error`) or to several (`Unwrap() []error`);
  `errors.Is` compares, asks the `Is` method, and descends depth-first;
* `zerolog`: an event is built from a logger (its context and caller hook), a
  level, event fields and a message; `Msg` hands the finished entry to the
  logger. What zerolog does with an entry afterwards (level filtering, JSON
  encoding, writing) is not part of `logger.go` and is not modelled.

Side effects are explicit: every operation takes a `World` (clock and effect
log) and returns the world after it.
-/

namespace gormzerolog

/-! ## Go runtime: errors -/

/-- Go error values as `errors.Is` sees them. Every value has an identity `id`
and the list `accepts` of the identities of the targets for which its method
`Is(target)` returns true (empty for a type without that method).
`leaf` is a value that unwraps to nothing (`errors.New`, or a type whose
`Unwrap` returns nil); `wrap` is a value with `Unwrap() error` returning `inner`
(`fmt.Errorf` with one `%w`); `join` is a value with `Unwrap() []error`
returning `inners` (`errors.Join`, `fmt.Errorf` with several `%w`). -/
inductive GoError where
  | leaf (id : Nat) (accepts : List Nat)
  | wrap (id : Nat) (accepts : List Nat) (inner : GoError)
  | join (id : Nat) (accepts : List Nat) (inners : List GoError)

mutual
/-- Equality of error values is decidable. -/
def GoError.decEq : (a b : GoError) → Decidable (a = b)
  | .leaf i a, .leaf j b =>
    if h : i = j ∧ a = b then isTrue (by rw [h.1, h.2])
    else isFalse (by intro e; cases e; exact h ⟨rfl, rfl⟩)
  | .wrap i a x, .wrap j b y =>
    match GoError.decEq x y with
    | isTrue hxy =>
      if h : i = j ∧ a = b then isTrue (by rw [h.1, h.2, hxy])
      else isFalse (by intro e; cases e; exact h ⟨rfl, rfl⟩)
    | isFalse hxy => isFalse (by intro e; cases e; exact hxy rfl)
  | .join i a xs, .join j b ys =>
    match GoError.decEqList xs ys with
    | isTrue hxy =>
      if h : i = j ∧ a = b then isTrue (by rw [h.1, h.2, hxy])
      else isFalse (by intro e; cases e; exact h ⟨rfl, rfl⟩)
    | isFalse hxy => isFalse (by intro e; cases e; exact hxy rfl)
  | .leaf .., .wrap .. => isFalse (by intro e; cases e)
  | .leaf .., .join .. => isFalse (by intro e; cases e)
  | .wrap .., .leaf .. => isFalse (by intro e; cases e)
  | .wrap .., .join .. => isFalse (by intro e; cases e)
  | .join .., .leaf .. => isFalse (by intro e; cases e)
  | .join .., .wrap .. => isFalse (by intro e; cases e)
/-- Equality of lists of error values is decidable. -/
def GoError.decEqList : (as bs : List GoError) → Decidable (as = bs)
  | [], [] => isTrue rfl
  | [], _ :: _ => isFalse (by intro e; cases e)
  | _ :: _, [] => isFalse (by intro e; cases e)
  | x :: xs, y :: ys =>
    match GoError.decEq x y with
    | isTrue hxy =>
      match GoError.decEqList xs ys with
      | isTrue h => isTrue (by rw [hxy, h])
      | isFalse h => isFalse (by intro e; cases e; exact h rfl)
    | isFalse hxy => isFalse (by intro e; cases e; exact hxy rfl)
end

instance : DecidableEq GoError := GoError.decEq

/-- The identity of an error value. -/
def GoError.id : GoError → Nat
  | .leaf i _ => i
  | .wrap i _ _ => i
  | .join i _ _ => i

/-- The targets that the value's own `Is` method accepts. -/
def GoError.accepts : GoError → List Nat
  | .leaf _ a => a
  | .wrap _ a _ => a
  | .join _ a _ => a

/-- The call `x.Is(target)` of the value's own method; false for a type without
the method. -/
def GoError.IsMethod (x target : GoError) : Bool :=
  x.accepts.contains target.id

/-- The sentinel `gorm.ErrRecordNotFound` (`errors.New("record not found")`): a
value with identity 0, no `Is` method and nothing to unwrap. -/
def ErrRecordNotFound : GoError := .leaf 0 []

/-- The two tests that the loop of `errors.Is` makes on the error at hand:
`err == target` (the target is comparable), then `err.Is(target)`. -/
def matchesHere (err target : GoError) : Bool :=
  decide (err = target) || err.IsMethod target

mutual
/-- The function `is` behind `errors.Is`, on a non-nil `err`: test the error at
hand, then unwrap: follow `Unwrap() error`, or try each error of
`Unwrap() []error` in turn; a value that unwraps to nothing ends the search. -/
def errorsIsLoop : GoError → GoError → Bool
  | .leaf i a, target => matchesHere (.leaf i a) target
  | .wrap i a inner, target => matchesHere (.wrap i a inner) target || errorsIsLoop inner target
  | .join i a inners, target => matchesHere (.join i a inners) target || errorsIsAny inners target
/-- The loop over the errors of `Unwrap() []error` in `is`. -/
def errorsIsAny : List GoError → GoError → Bool
  | [], _ => false
  | e :: rest, target => errorsIsLoop e target || errorsIsAny rest target
end

/-- Go's `errors.Is(err, target)` for a non-nil `target`; `err` may be nil (`none`). -/
def errorsIs (err : Option GoError) (target : GoError) : Bool :=
  match err with
  | none => false
  | some e => errorsIsLoop e target

mutual
/-- The errors reachable from an error by unwrapping: the error itself, then
what it wraps, depth-first. For a value with `Unwrap() error` this is its wrap
chain. -/
def GoError.reach : GoError → List GoError
  | .leaf i a => [.leaf i a]
  | .wrap i a inner => .wrap i a inner :: inner.reach
  | .join i a inners => .join i a inners :: GoError.reachAll inners
/-- The errors reachable from the errors of a list. -/
def GoError.reachAll : List GoError → List GoError
  | [] => []
  | e :: rest => e.reach ++ GoError.reachAll rest
end

/-- Wrap `e` in successive `%w` wrappers with the given identities (outermost
first). -/
def wrapWith (ids : List Nat) (e : GoError) : GoError :=
  ids.foldr (fun i x => GoError.wrap i [] x) e

/-! ## Go runtime: time -/

/-- The constant `time.minDuration`: the least int64. -/
def minDuration : Int := -(2 ^ 63)

/-- The constant `time.maxDuration`: the greatest int64. -/
def maxDuration : Int := 2 ^ 63 - 1

/-- Go's `t.Sub(u)`: the duration `t - u`, saturated to the int64 range. -/
def timeSub (t u : Int) : Int :=
  if t - u < minDuration then minDuration
  else if t - u > maxDuration then maxDuration
  else t - u

/-- The constant `time.Microsecond` in nanoseconds. -/
def Microsecond : Nat := 1000
/-- The constant `time.Millisecond` in nanoseconds. -/
def Millisecond : Nat := 1000 * Microsecond
/-- The constant `time.Second` in nanoseconds. -/
def Second : Nat := 1000 * Millisecond

/-- The character of a decimal digit (`byte(digit) + '0'`). -/
def digitChar : Nat → Char
  | 0 => '0' | 1 => '1' | 2 => '2' | 3 => '3' | 4 => '4'
  | 5 => '5' | 6 => '6' | 7 => '7' | 8 => '8' | _ => '9'

/-- The loop of `fmtFrac`: `prec` times, take the last digit of `v`, write it in
front of the buffer once a non-zero digit has been seen, and divide `v` by 10.
Returns the buffer, whether anything was written, and the remaining `v`. -/
def fmtFracLoop : Nat → List Char → Bool → Nat → List Char × Bool × Nat
  | 0, buf, pr, v => (buf, pr, v)
  | prec + 1, buf, pr, v =>
    let digit := v % 10
    let pr := pr || digit != 0
    fmtFracLoop prec (if pr then digitChar digit :: buf else buf) pr (v / 10)

/-- Go's `fmtFrac`: writes the fraction of `v / 10^prec` in front of `buf`,
without trailing zeros (and without the point when the fraction is 0); returns
the buffer and `v / 10^prec`. -/
def fmtFrac (buf : List Char) (v prec : Nat) : List Char × Nat :=
  let r := fmtFracLoop prec buf false v
  (if r.2.1 then '.' :: r.1 else r.1, r.2.2)

/-- The loop `for v > 0` of `fmtInt`; `fuel` bounds the number of rounds. -/
def fmtIntLoop : Nat → List Char → Nat → List Char
  | 0, buf, _ => buf
  | fuel + 1, buf, v =>
    if v > 0 then fmtIntLoop fuel (digitChar (v % 10) :: buf) (v / 10) else buf

/-- Go's `fmtInt`: writes `v` in decimal in front of `buf`. The loop divides
`v` by 10 each round, so `v` rounds always suffice. -/
def fmtInt (buf : List Char) (v : Nat) : List Char :=
  if v = 0 then '0' :: buf else fmtIntLoop v buf v

/-- Go's `Duration.format`, on the magnitude `u` of the duration: the text
without the sign. -/
def durationFormat (u : Nat) : List Char :=
  if u < Second then
    if u = 0 then ['0', 's']
    else if u < Microsecond then
      let r := fmtFrac ['n', 's'] u 0
      fmtInt r.1 r.2
    else if u < Millisecond then
      let r := fmtFrac ['µ', 's'] u 3
      fmtInt r.1 r.2
    else
      let r := fmtFrac ['m', 's'] u 6
      fmtInt r.1 r.2
  else
    let r := fmtFrac ['s'] u 9
    let buf := fmtInt r.1 (r.2 % 60)
    let u := r.2 / 60
    if u > 0 then
      let buf := fmtInt ('m' :: buf) (u % 60)
      let u := u / 60
      if u > 0 then fmtInt ('h' :: buf) u else buf
    else buf

/-- Go's `Duration.String`, which `%v` prints for a `time.Duration`. -/
def durationString (d : Int) : String :=
  String.mk (if d < 0 then '-' :: durationFormat d.natAbs else durationFormat d.natAbs)

/-! ## zerolog: loggers, events, entries -/

/-- The zerolog levels that `logger.go` uses, and `debug` between them. -/
inductive Level where
  | trace | debug | info | warn | error
deriving DecidableEq, Repr

/-- Values passed as `interface` arguments. -/
inductive GoValue where
  | nil
  | bool (b : Bool)
  | int (i : Int)
  | str (s : String)
deriving DecidableEq, Repr

/-- The value of a structured field, by the zerolog method that adds it. -/
inductive FieldValue where
  | str (s : String)
  | int64 (i : Int)
  | dur (d : Int)
  | iface (data : List GoValue)
deriving DecidableEq, Repr

/-- A named field of a log entry. -/
structure Field where
  key : String
  value : FieldValue
deriving DecidableEq, Repr

/-- A `zerolog.Logger`: the handle it writes to, the context fields added to it,
and the frame counts of the caller hooks added to it. -/
structure ZLogger where
  handle : Nat
  context : List Field
  callerHooks : List Int
deriving DecidableEq, Repr

/-- A `zerolog.Context`: a logger whose context is being extended. -/
structure ZContext where
  l : ZLogger
deriving DecidableEq, Repr

/-- A `zerolog.Event` under construction. -/
structure Event where
  owner : ZLogger
  level : Level
  caller : Option Int
  fields : List Field
deriving DecidableEq, Repr

/-- A finished log entry: the event and its message. `fields` are the fields
added to the event itself; the fields of the logger's context are in
`owner.context`. -/
structure Entry where
  owner : ZLogger
  level : Level
  caller : Option Int
  fields : List Field
  message : String
deriving DecidableEq, Repr

/-- The value of the first field named `key` among the entry's event fields. -/
def Entry.field (e : Entry) (key : String) : Option FieldValue :=
  (e.fields.find? (fun f => f.key == key)).map Field.value

/-! ## The world: clock and effect log -/

/-- An observable effect of the adapter. -/
inductive Effect where
  | clockRead (t : Int)
  | callback (sql : String) (rows : Int)
  | emit (e : Entry)
deriving DecidableEq, Repr

/-- The world an operation runs in: the current instant and the effects so far,
oldest first. -/
structure World where
  now : Int
  log : List Effect
deriving DecidableEq, Repr

/-- The entries emitted so far, oldest first. -/
def World.emitted (w : World) : List Entry :=
  w.log.filterMap (fun x => match x with
    | .emit e => some e
    | _ => none)

/-- The number of invocations of a result callback so far. -/
def World.callbackCount (w : World) : Nat :=
  (w.log.filter (fun x => match x with
    | .callback _ _ => true
    | _ => false)).length

/-- Go's `time.Now()`. -/
def timeNow (w : World) : Int × World :=
  (w.now, { w with log := w.log ++ [.clockRead w.now] })

/-- Go's `time.Since(begin)`, that is `time.Now().Sub(begin)`. -/
def timeSince (begin : Int) (w : World) : Int × World :=
  let r := timeNow w
  (timeSub r.1 begin, r.2)

/-- The callback `fc func() (string, int64)` of a trace call: what it returns,
and how long it runs. -/
structure ResultFn where
  sql : String
  rows : Int
  cost : Nat
deriving DecidableEq, Repr

/-- One invocation `fc()`: the clock advances by the callback's running time. -/
def ResultFn.call (fc : ResultFn) (w : World) : (String × Int) × World :=
  ((fc.sql, fc.rows), { now := w.now + fc.cost, log := w.log ++ [.callback fc.sql fc.rows] })

/-- A `context.Context`; the adapter never looks at it. -/
structure Context where
  deadline : Option Int
  cancelled : Bool
deriving DecidableEq, Repr

/-- zerolog's `l.With()`. -/
def ZLogger.With (l : ZLogger) : ZContext := ⟨l⟩

/-- zerolog's `c.CallerWithSkipFrameCount(n)`: a caller hook is added to the
logger's hooks. -/
def ZContext.CallerWithSkipFrameCount (c : ZContext) (n : Int) : ZContext :=
  ⟨{ c.l with callerHooks := c.l.callerHooks ++ [n] }⟩

/-- zerolog's `c.Dur(key, d)`. -/
def ZContext.Dur (c : ZContext) (key : String) (d : Int) : ZContext :=
  ⟨{ c.l with context := c.l.context ++ [⟨key, .dur d⟩] }⟩

/-- zerolog's `c.Logger()`. -/
def ZContext.Logger (c : ZContext) : ZLogger := c.l

/-- A new event of the logger at a level. -/
def ZLogger.newEvent (l : ZLogger) (lvl : Level) : Event :=
  { owner := l, level := lvl, caller := none, fields := [] }

/-- zerolog's `l.Trace()`. -/
def ZLogger.Trace (l : ZLogger) : Event := l.newEvent .trace
/-- zerolog's `l.Info()`. -/
def ZLogger.Info (l : ZLogger) : Event := l.newEvent .info
/-- zerolog's `l.Warn()`. -/
def ZLogger.Warn (l : ZLogger) : Event := l.newEvent .warn
/-- zerolog's `l.Error()`. -/
def ZLogger.Error (l : ZLogger) : Event := l.newEvent .error

/-- zerolog's `e.Caller(skip)`. -/
def Event.Caller (e : Event) (skip : Int) : Event := { e with caller := some skip }

/-- zerolog's `e.Interface(key, v)`. -/
def Event.Interface (e : Event) (key : String) (v : List GoValue) : Event :=
  { e with fields := e.fields ++ [⟨key, .iface v⟩] }

/-- zerolog's `e.Str(key, s)`. -/
def Event.Str (e : Event) (key : String) (s : String) : Event :=
  { e with fields := e.fields ++ [⟨key, .str s⟩] }

/-- zerolog's `e.Int64(key, i)`. -/
def Event.Int64 (e : Event) (key : String) (i : Int) : Event :=
  { e with fields := e.fields ++ [⟨key, .int64 i⟩] }

/-- zerolog's `e.Msg(msg)`: the entry is handed over. -/
def Event.Msg (e : Event) (msg : String) (w : World) : World :=
  { w with log := w.log ++ [.emit
      { owner := e.owner, level := e.level, caller := e.caller, fields := e.fields, message := msg }] }

/-! ## logger.go -/

/-- The struct `Config`. -/
structure Config where
  SlowThreshold : Int
  IgnoreRecordNotFoundError : Bool
deriving DecidableEq, Repr

/-- The struct `logger`: a zerolog logger and the embedded `Config`. -/
structure logger where
  Logger : ZLogger
  toConfig : Config
deriving DecidableEq, Repr

/-- The promoted field `SlowThreshold` of the embedded `Config`. -/
def logger.SlowThreshold (l : logger) : Int := l.toConfig.SlowThreshold

/-- The promoted field `IgnoreRecordNotFoundError` of the embedded `Config`. -/
def logger.IgnoreRecordNotFoundError (l : logger) : Bool := l.toConfig.IgnoreRecordNotFoundError

/-- The global `log.Logger` of zerolog, used when `New` is given no logger. -/
def globalLogger : ZLogger := { handle := 0, context := [], callerHooks := [] }

/-- The function `New`. -/
def New (zl : Option ZLogger) (config : Config) : logger :=
  let zl := match zl with
    | none => globalLogger
    | some z => z
  { Logger := zl, toConfig := config }

/-- The method `LogMode`: returns the receiver. -/
def logger.LogMode (l : logger) (_level : Int) : logger := l

/-- The method `Info`. -/
def logger.Info (l : logger) (_ctx : Context) (msg : String) (data : List GoValue) (w : World) : World :=
  (((l.Logger.Info).Caller 9).Interface "data" data).Msg msg w

/-- The method `Warn`. -/
def logger.Warn (l : logger) (_ctx : Context) (msg : String) (data : List GoValue) (w : World) : World :=
  (((l.Logger.Warn).Caller 9).Interface "data" data).Msg msg w

/-- The method `Error`. -/
def logger.Error (l : logger) (_ctx : Context) (msg : String) (data : List GoValue) (w : World) : World :=
  (((l.Logger.Error).Caller 9).Interface "data" data).Msg msg w

/-- The method `Trace` of the adapter. -/
def logger.Trace (l : logger) (_ctx : Context) (begin : Int) (fc : ResultFn)
    (err : Option GoError) (w : World) : World :=
  let t := timeSince begin w
  let elapsed := t.1
  let r := fc.call t.2
  let sql := r.1.1
  let rows := r.1.2
  let lg := (((l.Logger.With).CallerWithSkipFrameCount 9).Dur "elapsed" elapsed).Logger
  let lo : Event :=
    if err.isSome && (!(errorsIs err ErrRecordNotFound) || !l.IgnoreRecordNotFoundError) then
      lg.Error
    else if decide (elapsed > l.SlowThreshold) && l.SlowThreshold != 0 then
      let slowLog := "SLOW SQL >= " ++ durationString l.SlowThreshold
      (lg.Warn).Str "slowSql" slowLog
    else
      lg.Trace
  if rows = -1 then
    lo.Msg sql r.2
  else
    (lo.Int64 "rows" rows).Msg sql r.2

/-- The struct `traceRecorder`: the embedded logging interface and the captured
fields. The interface value is the adapter it was built from (`Default` is the
only value the package ever puts there). -/
structure traceRecorder where
  Interface : logger
  BeginAt : Int
  SQL : String
  RowsAffected : Int
  Err : Option GoError
deriving DecidableEq

/-- The method `New` of the recorder (value receiver): the value of the freshly
allocated recorder. -/
def traceRecorder.New (l : traceRecorder) (w : World) : traceRecorder × World :=
  let t := timeNow w
  ({ Interface := l.Interface, BeginAt := t.1, SQL := "", RowsAffected := 0, Err := none }, t.2)

/-- The method `Trace` of the recorder (pointer receiver): the recorder the
pointer refers to, after the call. -/
def traceRecorder.Trace (l : traceRecorder) (_ctx : Context) (begin : Int) (fc : ResultFn)
    (err : Option GoError) (w : World) : traceRecorder × World :=
  let l1 := { l with BeginAt := begin }
  let r := fc.call w
  let l2 := { l1 with SQL := r.1.1, RowsAffected := r.1.2 }
  ({ l2 with Err := err }, r.2)

/-- The global `Default`. -/
def Default : logger :=
  New none { SlowThreshold := 200 * Millisecond, IgnoreRecordNotFoundError := false }

/-- The global `Recorder`, initialised when the package is loaded. -/
def Recorder (w : World) : traceRecorder × World :=
  let t := timeNow w
  ({ Interface := Default, BeginAt := t.1, SQL := "", RowsAffected := 0, Err := none }, t.2)

/-! ## Drivers used to state properties of sequences of calls and of aliasing -/

/-- The arguments of one trace call. -/
structure TraceCall where
  ctx : Context
  begin : Int
  fc : ResultFn
  err : Option GoError
deriving DecidableEq

/-- A sequence of `Trace` calls on one recorder, in order. -/
def traceRecorder.TraceAll (l : traceRecorder) (calls : List TraceCall) (w : World) :
    traceRecorder × World :=
  calls.foldl (fun s c => s.1.Trace c.ctx c.begin c.fc c.err s.2) (l, w)

/-- Recorder objects in memory: the address of a recorder is its index. -/
abbrev Heap := List traceRecorder

/-- Allocation of a recorder value: `&traceRecorder{...}` yields a fresh address. -/
def Heap.alloc (h : Heap) (r : traceRecorder) : Nat × Heap :=
  (h.length, h ++ [r])

/-- The call `p.New()` for the recorder at address `p`: the receiver is a copy of
the recorder, the result is the address of a new one. `none` when `p` is not the
address of a recorder. -/
def Heap.New (h : Heap) (p : Nat) (w : World) : Option (Nat × Heap × World) :=
  match h[p]? with
  | none => none
  | some r =>
    let x := r.New w
    let y := Heap.alloc h x.1
    some (y.1, y.2, x.2)

/-- The call `p.Trace(ctx, begin, fc, err)` through the pointer `p`: the
recorder at `p` is updated in place. `none` when `p` is not the address of a
recorder. -/
def Heap.Trace (h : Heap) (p : Nat) (ctx : Context) (begin : Int) (fc : ResultFn)
    (err : Option GoError) (w : World) : Option (Heap × World) :=
  match h[p]? with
  | none => none
  | some r =>
    let x := r.Trace ctx begin fc err w
    some (h.set p x.1, x.2)

/-! ## Auxiliary definitions for the statements -/

/-- The fields that the last lines of `Trace` add for the row count. -/
def rowsFields (rows : Int) : List Field :=
  if rows = -1 then [] else [⟨"rows", .int64 rows⟩]

/-! ## Values used to instantiate the theorems -/

/-- The adapter with the default configuration of `logger.go` (threshold 200ms). -/
def sampleLogger : logger := Default

/-- An adapter that ignores record-not-found, with a threshold of 200ms. -/
def lenientLogger : logger :=
  New none { SlowThreshold := 200 * Millisecond, IgnoreRecordNotFoundError := true }

/-- A world whose clock stands at 300ms and where nothing has happened yet. -/
def sampleWorld : World := { now := 300000000, log := [] }

/-- A background context. -/
def sampleCtx : Context := { deadline := none, cancelled := false }

/-- A callback returning the statement `UPDATE x` and 3 rows, running for 1ms. -/
def sampleFc : ResultFn := { sql := "UPDATE x", rows := 3, cost := 1000000 }

/-- An adapter whose threshold is 0: slow-query detection is off. -/
def zeroThresholdLogger : logger :=
  New none { SlowThreshold := 0, IgnoreRecordNotFoundError := true }

/-- An error that joins a plain error and a wrapper of the record-not-found
error (`Unwrap() []error`). -/
def joinedNotFound : GoError :=
  .join 3 [] [.leaf 4 [], .wrap 5 [] ErrRecordNotFound]

/-- A plain error under one `%w` wrapper. -/
def plainWrapped : GoError := .wrap 4 [] (.leaf 7 [])

/-- An error of a type that wraps nothing and whose method `Is` returns true for
`gorm.ErrRecordNotFound`. -/
def claimsNotFound : GoError := .leaf 5 [0]

/-- A callback returning the statement `SELECT 1` and 1 row, in no time. -/
def fastFc : ResultFn := { sql := "SELECT 1", rows := 1, cost := 0 }

/-- A recorder that has captured a failed statement. -/
def usedRecorder : traceRecorder :=
  { Interface := Default, BeginAt := 5, SQL := "SELECT 1", RowsAffected := 1,
    Err := some ErrRecordNotFound }

/-! ## Lemmas on the Go runtime model -/

mutual
theorem errorsIsLoop_iff_reach : ∀ (e t : GoError),
    errorsIsLoop e t = true ↔ ∃ x ∈ e.reach, matchesHere x t = true
  | .leaf i a, t => by
    simp only [errorsIsLoop, GoError.reach, List.mem_singleton, exists_eq_left]
  | .wrap i a inner, t => by
    have ih := errorsIsLoop_iff_reach inner t
    simp only [errorsIsLoop, GoError.reach, Bool.or_eq_true, List.mem_cons, exists_eq_or_imp, ih]
  | .join i a inners, t => by
    have ih := errorsIsAny_iff_reachAll inners t
    simp only [errorsIsLoop, GoError.reach, Bool.or_eq_true, List.mem_cons, exists_eq_or_imp, ih]
theorem errorsIsAny_iff_reachAll : ∀ (es : List GoError) (t : GoError),
    errorsIsAny es t = true ↔ ∃ x ∈ GoError.reachAll es, matchesHere x t = true
  | [], t => by
    simp [errorsIsAny, GoError.reachAll]
  | e :: rest, t => by
    have ih1 := errorsIsLoop_iff_reach e t
    have ih2 := errorsIsAny_iff_reachAll rest t
    simp only [errorsIsAny, GoError.reachAll, Bool.or_eq_true, List.mem_append, ih1, ih2]
    constructor
    · rintro (⟨x, hx, hm⟩ | ⟨x, hx, hm⟩)
      · exact ⟨x, Or.inl hx, hm⟩
      · exact ⟨x, Or.inr hx, hm⟩
    · rintro ⟨x, hx | hx, hm⟩
      · exact Or.inl ⟨x, hx, hm⟩
      · exact Or.inr ⟨x, hx, hm⟩
end

theorem matchesHere_self (t : GoError) : matchesHere t t = true := by
  simp [matchesHere]

theorem errorsIsLoop_of_mem_reach (e t : GoError) (h : t ∈ e.reach) :
    errorsIsLoop e t = true :=
  (errorsIsLoop_iff_reach e t).mpr ⟨t, h, matchesHere_self t⟩

theorem errorsIsLoop_eq_false (e t : GoError)
    (h : ∀ x ∈ e.reach, x ≠ t ∧ x.IsMethod t = false) :
    errorsIsLoop e t = false := by
  cases hc : errorsIsLoop e t
  · rfl
  · obtain ⟨x, hx, hm⟩ := (errorsIsLoop_iff_reach e t).mp hc
    have hx2 := h x hx
    simp [matchesHere, hx2.1, hx2.2] at hm

theorem self_mem_reach (e : GoError) : e ∈ e.reach := by
  cases e <;> simp [GoError.reach]

theorem mem_reach_wrapWith (ids : List Nat) (t : GoError) :
    t ∈ (wrapWith ids t).reach := by
  induction ids with
  | nil => exact self_mem_reach t
  | cons i rest ih =>
    simp only [wrapWith, List.foldr_cons, GoError.reach, List.mem_cons]
    exact Or.inr ih

/-- The standard library's examples of `Duration.String`, and the default
threshold. -/
theorem durationString_samples :
    durationString 200000000 = "200ms"
    ∧ durationString 1500000000 = "1.5s"
    ∧ durationString 0 = "0s"
    ∧ durationString (-3723000000001) = "-1h2m3.000000001s"
    ∧ durationString 999 = "999ns"
    ∧ durationString 1500 = "1.5µs"
    ∧ durationString (2 ^ 63 - 1) = "2562047h47m16.854775807s"
    ∧ durationString (-(2 ^ 63)) = "-2562047h47m16.854775808s" := by
  refine ⟨?_, ?_, ?_, ?_, ?_, ?_, ?_, ?_⟩ <;> decide

theorem emitted_Msg (e : Event) (msg : String) (w : World) :
    (e.Msg msg w).emitted = w.emitted ++
      [{ owner := e.owner, level := e.level, caller := e.caller, fields := e.fields,
         message := msg }] := by
  simp [Event.Msg, World.emitted, List.filterMap_append]

theorem emitted_call_since (fc : ResultFn) (begin : Int) (w : World) :
    (fc.call (timeSince begin w).2).2.emitted = w.emitted := by
  simp [ResultFn.call, timeSince, timeNow, World.emitted, List.filterMap_append]

theorem key_slowSql_ne_rows : (("rows" : String) == "slowSql") = false := by decide

theorem key_rows_ne_slowSql : (("slowSql" : String) == "rows") = false := by decide

/-! ## The adapter's Trace -/

/-- The entry of one `Trace` call, branch by branch: exactly one entry is
emitted; its message is the SQL text; it comes from the adapter's logger with
a caller hook at 9 frames and the elapsed duration added to the context; its
level and event fields are those of the first branch of the switch that
applies. -/
theorem trace_entry_spec (l : logger) (ctx : Context) (begin : Int) (fc : ResultFn)
    (err : Option GoError) (w : World) :
    ∃ e : Entry, (logger.Trace l ctx begin fc err w).emitted = w.emitted ++ [e]
      ∧ e.message = fc.sql
      ∧ e.caller = none
      ∧ e.owner = { handle := l.Logger.handle,
                    context := l.Logger.context ++ [⟨"elapsed", .dur (timeSub w.now begin)⟩],
                    callerHooks := l.Logger.callerHooks ++ [9] }
      ∧ ((err.isSome && (!(errorsIs err ErrRecordNotFound) || !l.IgnoreRecordNotFoundError)) = true →
          e.level = Level.error ∧ e.fields = rowsFields fc.rows)
      ∧ ((err.isSome && (!(errorsIs err ErrRecordNotFound) || !l.IgnoreRecordNotFoundError)) = false →
          (timeSub w.now begin > l.SlowThreshold ∧ l.SlowThreshold ≠ 0 →
            e.level = Level.warn ∧
            e.fields = ⟨"slowSql", .str ("SLOW SQL >= " ++ durationString l.SlowThreshold)⟩ ::
              rowsFields fc.rows)
          ∧ (¬ (timeSub w.now begin > l.SlowThreshold ∧ l.SlowThreshold ≠ 0) →
            e.level = Level.trace ∧ e.fields = rowsFields fc.rows)) := by
  have ht : (timeSince begin w).1 = timeSub w.now begin := rfl
  have hq : (fc.call (timeSince begin w).2).1 = (fc.sql, fc.rows) := rfl
  unfold logger.Trace
  simp only [ht, hq]
  cases hc : (err.isSome && (!(errorsIs err ErrRecordNotFound) || !l.IgnoreRecordNotFoundError))
  · by_cases hs : timeSub w.now begin > l.SlowThreshold ∧ l.SlowThreshold ≠ 0
    · have hb : (decide (timeSub w.now begin > l.SlowThreshold) && l.SlowThreshold != 0) = true := by
        simp [hs.1, hs.2]
      by_cases hr : fc.rows = -1
      · simp only [hb, hr, if_true, Bool.false_eq_true, if_false, emitted_Msg, emitted_call_since]
        refine ⟨_, rfl, rfl, rfl, rfl, ?_, ?_⟩
        · intro h; cases h
        · intro _
          exact ⟨fun _ => ⟨rfl, rfl⟩, fun h => absurd hs h⟩
      · simp only [hb, hr, if_true, Bool.false_eq_true, if_false, emitted_Msg, emitted_call_since]
        refine ⟨_, rfl, rfl, rfl, rfl, ?_, ?_⟩
        · intro h; cases h
        · intro _
          refine ⟨fun _ => ⟨rfl, ?_⟩, fun h => absurd hs h⟩
          simp [rowsFields, hr, Event.Int64, Event.Str, ZLogger.Warn, ZLogger.newEvent]
    · have hb : (decide (timeSub w.now begin > l.SlowThreshold) && l.SlowThreshold != 0) = false := by
        by_cases h1 : timeSub w.now begin > l.SlowThreshold
        · have h2 : l.SlowThreshold = 0 := by
            by_contra h2
            exact hs ⟨h1, h2⟩
          simp [h2]
        · simp [h1]
      by_cases hr : fc.rows = -1
      · simp only [hb, hr, if_true, Bool.false_eq_true, if_false, emitted_Msg, emitted_call_since]
        refine ⟨_, rfl, rfl, rfl, rfl, ?_, ?_⟩
        · intro h; cases h
        · intro _
          exact ⟨fun h => absurd h hs, fun _ => ⟨rfl, rfl⟩⟩
      · simp only [hb, hr, if_true, Bool.false_eq_true, if_false, emitted_Msg, emitted_call_since]
        refine ⟨_, rfl, rfl, rfl, rfl, ?_, ?_⟩
        · intro h; cases h
        · intro _
          refine ⟨fun h => absurd h hs, fun _ => ⟨rfl, ?_⟩⟩
          simp [rowsFields, hr, Event.Int64, ZLogger.Trace, ZLogger.newEvent]
  · by_cases hr : fc.rows = -1
    · simp only [hr, if_true, emitted_Msg, emitted_call_since]
      refine ⟨_, rfl, rfl, rfl, rfl, ?_, ?_⟩
      · intro _
        exact ⟨rfl, rfl⟩
      · intro h; cases h
    · simp only [hr, if_true, if_false, emitted_Msg, emitted_call_since]
      refine ⟨_, rfl, rfl, rfl, rfl, ?_, ?_⟩
      · intro _
        refine ⟨rfl, ?_⟩
        simp [rowsFields, hr, Event.Int64, ZLogger.Error, ZLogger.newEvent]
      · intro h; cases h

theorem field_slowSql_rowsFields (e : Entry) (rows : Int) (h : e.fields = rowsFields rows) :
    e.field "slowSql" = none := by
  unfold Entry.field rowsFields at *
  rw [h]
  split
  · rfl
  · simp [List.find?, key_slowSql_ne_rows]

theorem field_rows_rowsFields (e : Entry) (rows : Int) (h : e.fields = rowsFields rows) :
    e.field "rows" = if rows = -1 then none else some (.int64 rows) := by
  unfold Entry.field rowsFields at *
  rw [h]
  split
  · rfl
  · simp [List.find?]

theorem field_slowSql_cons (e : Entry) (s : String) (rest : List Field)
    (h : e.fields = ⟨"slowSql", .str s⟩ :: rest) :
    e.field "slowSql" = some (.str s) := by
  unfold Entry.field
  rw [h]
  simp [List.find?]

theorem field_rows_cons (e : Entry) (s : String) (rows : Int)
    (h : e.fields = ⟨"slowSql", .str s⟩ :: rowsFields rows) :
    e.field "rows" = if rows = -1 then none else some (.int64 rows) := by
  unfold Entry.field rowsFields at *
  rw [h]
  split
  · simp [List.find?, key_rows_ne_slowSql]
  · simp [List.find?, key_rows_ne_slowSql]

/-- C1: for every configuration, begin time, callback result and every non-nil
error that is not the record-not-found error (the test `errors.Is` of the code
reports false for it), Trace emits exactly one entry, at Error severity, that
has no slowSql field, whatever the elapsed time and the threshold are; the only
thing added to the logger's context is the elapsed duration. -/
theorem trace_error_precedence (l : logger) (ctx : Context) (begin : Int) (fc : ResultFn)
    (err : GoError) (w : World) (hne : errorsIs (some err) ErrRecordNotFound = false) :
    ∃ e : Entry, (logger.Trace l ctx begin fc (some err) w).emitted = w.emitted ++ [e]
      ∧ e.level = Level.error ∧ e.field "slowSql" = none
      ∧ e.owner.context = l.Logger.context ++ [⟨"elapsed", .dur (timeSub w.now begin)⟩] := by
  obtain ⟨e, he, -, -, ho, herr, -⟩ := trace_entry_spec l ctx begin fc (some err) w
  have h := herr (by simp [hne])
  exact ⟨e, he, h.1, field_slowSql_rowsFields e fc.rows h.2, by rw [ho]⟩

/-- Witness of C1: a plain error on a query that ran 300ms against a threshold of
200ms. -/
theorem trace_error_precedence_witness :
    errorsIs (some (GoError.leaf 7 [])) ErrRecordNotFound = false ∧
    ∃ e : Entry, (logger.Trace sampleLogger sampleCtx 0 sampleFc (some (GoError.leaf 7 []))
        sampleWorld).emitted = sampleWorld.emitted ++ [e]
      ∧ e.level = Level.error ∧ e.field "slowSql" = none
      ∧ e.owner.context = sampleLogger.Logger.context ++
          [⟨"elapsed", .dur (timeSub sampleWorld.now 0)⟩] :=
  ⟨by decide, trace_error_precedence sampleLogger sampleCtx 0 sampleFc (GoError.leaf 7 [])
    sampleWorld (by decide)⟩

/-- C2: with the record-not-found error itself as `err`: when
IgnoreRecordNotFoundError is false the entry is at Error severity; when it is
true, Trace does exactly what it does with `err = nil` on the same inputs (the
same entry, the same world), that is a Warning with the slowSql field when
elapsed > SlowThreshold and SlowThreshold is not 0, and a trace-level entry
without that field otherwise. -/
theorem trace_record_not_found (l : logger) (ctx : Context) (begin : Int) (fc : ResultFn)
    (w : World) :
    (l.IgnoreRecordNotFoundError = false →
      ∃ e : Entry, (logger.Trace l ctx begin fc (some ErrRecordNotFound) w).emitted
          = w.emitted ++ [e] ∧ e.level = Level.error)
    ∧ (l.IgnoreRecordNotFoundError = true →
      logger.Trace l ctx begin fc (some ErrRecordNotFound) w = logger.Trace l ctx begin fc none w
      ∧ ∃ e : Entry, (logger.Trace l ctx begin fc (some ErrRecordNotFound) w).emitted
          = w.emitted ++ [e]
        ∧ (timeSub w.now begin > l.SlowThreshold ∧ l.SlowThreshold ≠ 0 →
            e.level = Level.warn ∧
            e.field "slowSql" = some (.str ("SLOW SQL >= " ++ durationString l.SlowThreshold)))
        ∧ (¬ (timeSub w.now begin > l.SlowThreshold ∧ l.SlowThreshold ≠ 0) →
            e.level = Level.trace ∧ e.field "slowSql" = none)) := by
  have hrnf : errorsIs (some ErrRecordNotFound) ErrRecordNotFound = true := by decide
  constructor
  · intro hig
    obtain ⟨e, he, -, -, -, herr, -⟩ := trace_entry_spec l ctx begin fc (some ErrRecordNotFound) w
    exact ⟨e, he, (herr (by simp [hig])).1⟩
  · intro hig
    constructor
    · unfold logger.Trace
      simp only [hrnf, hig, Option.isSome_some, Option.isSome_none, Bool.not_true, Bool.or_self,
        Bool.and_false, Bool.false_and]
    · obtain ⟨e, he, -, -, -, -, hok⟩ := trace_entry_spec l ctx begin fc (some ErrRecordNotFound) w
      have h := hok (by simp [hrnf, hig])
      refine ⟨e, he, fun hs => ?_, fun hs => ?_⟩
      · exact ⟨(h.1 hs).1, field_slowSql_cons e _ _ (h.1 hs).2⟩
      · exact ⟨(h.2 hs).1, field_slowSql_rowsFields e fc.rows (h.2 hs).2⟩

/-- Witness of C2: both settings of IgnoreRecordNotFoundError, on a query that ran
300ms against a threshold of 200ms. -/
theorem trace_record_not_found_witness :
    sampleLogger.IgnoreRecordNotFoundError = false
    ∧ lenientLogger.IgnoreRecordNotFoundError = true
    ∧ (∃ e : Entry, (logger.Trace sampleLogger sampleCtx 0 sampleFc (some ErrRecordNotFound)
          sampleWorld).emitted = sampleWorld.emitted ++ [e] ∧ e.level = Level.error)
    ∧ logger.Trace lenientLogger sampleCtx 0 sampleFc (some ErrRecordNotFound) sampleWorld
        = logger.Trace lenientLogger sampleCtx 0 sampleFc none sampleWorld :=
  ⟨by decide, by decide,
    (trace_record_not_found sampleLogger sampleCtx 0 sampleFc sampleWorld).1 (by decide),
    ((trace_record_not_found lenientLogger sampleCtx 0 sampleFc sampleWorld).2 (by decide)).1⟩

/-- C3: with a threshold above 0 and `err = nil`: when elapsed > SlowThreshold the
entry is a Warning whose string field slowSql is the text SLOW SQL >= followed
by the threshold printed as a duration (for 200ms exactly SLOW SQL >= 200ms);
when elapsed <= SlowThreshold the entry is at trace level and has no slowSql
field. -/
theorem trace_slow_warning (l : logger) (ctx : Context) (begin : Int) (fc : ResultFn)
    (w : World) (hpos : 0 < l.SlowThreshold) :
    ∃ e : Entry, (logger.Trace l ctx begin fc none w).emitted = w.emitted ++ [e]
      ∧ (timeSub w.now begin > l.SlowThreshold →
          e.level = Level.warn
          ∧ e.field "slowSql" = some (.str ("SLOW SQL >= " ++ durationString l.SlowThreshold))
          ∧ (l.SlowThreshold = 200 * Millisecond →
              e.field "slowSql" = some (.str "SLOW SQL >= 200ms")))
      ∧ (timeSub w.now begin ≤ l.SlowThreshold →
          e.level = Level.trace ∧ e.field "slowSql" = none) := by
  obtain ⟨e, he, -, -, -, -, hok⟩ := trace_entry_spec l ctx begin fc none w
  have h := hok (by simp)
  have hne : l.SlowThreshold ≠ 0 := ne_of_gt hpos
  refine ⟨e, he, fun hs => ?_, fun hs => ?_⟩
  · have hf := field_slowSql_cons e _ _ (h.1 ⟨hs, hne⟩).2
    refine ⟨(h.1 ⟨hs, hne⟩).1, hf, fun h200 => ?_⟩
    rw [hf, h200]
    decide
  · have hn : ¬ (timeSub w.now begin > l.SlowThreshold ∧ l.SlowThreshold ≠ 0) :=
      fun hc => absurd hc.1 (not_lt.mpr hs)
    exact ⟨(h.2 hn).1, field_slowSql_rowsFields e fc.rows (h.2 hn).2⟩

/-- Witness of C3: the default threshold of 200ms, a query begun at 0 and traced
at 300ms. -/
theorem trace_slow_warning_witness :
    0 < sampleLogger.SlowThreshold
    ∧ timeSub sampleWorld.now 0 > sampleLogger.SlowThreshold
    ∧ ∃ e : Entry, (logger.Trace sampleLogger sampleCtx 0 sampleFc none sampleWorld).emitted
        = sampleWorld.emitted ++ [e]
      ∧ (timeSub sampleWorld.now 0 > sampleLogger.SlowThreshold →
          e.level = Level.warn
          ∧ e.field "slowSql"
              = some (.str ("SLOW SQL >= " ++ durationString sampleLogger.SlowThreshold))
          ∧ (sampleLogger.SlowThreshold = 200 * Millisecond →
              e.field "slowSql" = some (.str "SLOW SQL >= 200ms")))
      ∧ (timeSub sampleWorld.now 0 ≤ sampleLogger.SlowThreshold →
          e.level = Level.trace ∧ e.field "slowSql" = none) :=
  ⟨by decide, by decide,
    trace_slow_warning sampleLogger sampleCtx 0 sampleFc sampleWorld (by decide)⟩

/-- C4: with SlowThreshold = 0, whatever the elapsed time, the error, the flag
IgnoreRecordNotFoundError and the callback result are, the entry of Trace is at
Error severity or at trace level, never a Warning, and has no slowSql field;
the only thing added to the logger's context is the elapsed duration. -/
theorem trace_zero_threshold (l : logger) (ctx : Context) (begin : Int) (fc : ResultFn)
    (err : Option GoError) (w : World) (hzero : l.SlowThreshold = 0) :
    ∃ e : Entry, (logger.Trace l ctx begin fc err w).emitted = w.emitted ++ [e]
      ∧ (e.level = Level.error ∨ e.level = Level.trace)
      ∧ e.level ≠ Level.warn
      ∧ e.field "slowSql" = none
      ∧ e.owner.context = l.Logger.context ++ [⟨"elapsed", .dur (timeSub w.now begin)⟩] := by
  obtain ⟨e, he, -, -, ho, herr, hok⟩ := trace_entry_spec l ctx begin fc err w
  have hn : ¬ (timeSub w.now begin > l.SlowThreshold ∧ l.SlowThreshold ≠ 0) :=
    fun hc => hc.2 hzero
  cases hc : (err.isSome && (!(errorsIs err ErrRecordNotFound) || !l.IgnoreRecordNotFoundError))
  · have h := (hok hc).2 hn
    refine ⟨e, he, Or.inr h.1, ?_, field_slowSql_rowsFields e fc.rows h.2, by rw [ho]⟩
    rw [h.1]
    decide
  · have h := herr hc
    refine ⟨e, he, Or.inl h.1, ?_, field_slowSql_rowsFields e fc.rows h.2, by rw [ho]⟩
    rw [h.1]
    decide

/-- Witness of C4: threshold 0, no error, a query that ran 300ms. -/
theorem trace_zero_threshold_witness :
    zeroThresholdLogger.SlowThreshold = 0
    ∧ ∃ e : Entry, (logger.Trace zeroThresholdLogger sampleCtx 0 sampleFc none sampleWorld).emitted
        = sampleWorld.emitted ++ [e]
      ∧ (e.level = Level.error ∨ e.level = Level.trace)
      ∧ e.level ≠ Level.warn
      ∧ e.field "slowSql" = none
      ∧ e.owner.context = zeroThresholdLogger.Logger.context ++
          [⟨"elapsed", .dur (timeSub sampleWorld.now 0)⟩] :=
  ⟨by decide, trace_zero_threshold zeroThresholdLogger sampleCtx 0 sampleFc none sampleWorld
    (by decide)⟩

/-- C5: for every input, in whichever of the three branches, the entry of Trace
has the SQL text of the callback as its message, and it has an integer field
rows exactly when the callback's row count is not -1; the field then holds that
row count (0 and negative counts other than -1 included). -/
theorem trace_message_and_rows (l : logger) (ctx : Context) (begin : Int) (fc : ResultFn)
    (err : Option GoError) (w : World) :
    ∃ e : Entry, (logger.Trace l ctx begin fc err w).emitted = w.emitted ++ [e]
      ∧ e.message = fc.sql
      ∧ ((e.field "rows").isSome ↔ fc.rows ≠ -1)
      ∧ (fc.rows ≠ -1 → e.field "rows" = some (.int64 fc.rows))
      ∧ (fc.rows = -1 → e.field "rows" = none) := by
  obtain ⟨e, he, hm, -, -, herr, hok⟩ := trace_entry_spec l ctx begin fc err w
  have hf : e.field "rows" = if fc.rows = -1 then none else some (.int64 fc.rows) := by
    cases hc : (err.isSome && (!(errorsIs err ErrRecordNotFound) || !l.IgnoreRecordNotFoundError))
    · by_cases hs : timeSub w.now begin > l.SlowThreshold ∧ l.SlowThreshold ≠ 0
      · exact field_rows_cons e _ fc.rows ((hok hc).1 hs).2
      · exact field_rows_rowsFields e fc.rows ((hok hc).2 hs).2
    · exact field_rows_rowsFields e fc.rows (herr hc).2
  refine ⟨e, he, hm, ?_, ?_, ?_⟩
  · rw [hf]
    by_cases hr : fc.rows = -1 <;> simp [hr]
  · intro hr
    rw [hf, if_neg hr]
  · intro hr
    rw [hf, if_pos hr]

/-- The example scenarios for Trace, evaluated: a fast statement, a slow
statement, record-not-found with and without the flag, and a row count
of -1. -/
theorem trace_scenarios :
    (logger.Trace sampleLogger sampleCtx 295000000 ⟨"SELECT 1", 1, 0⟩ none sampleWorld).emitted
      = [{ owner := { handle := 0, context := [⟨"elapsed", .dur 5000000⟩], callerHooks := [9] },
           level := Level.trace, caller := none, fields := [⟨"rows", .int64 1⟩],
           message := "SELECT 1" }]
    ∧ (logger.Trace sampleLogger sampleCtx 0 sampleFc none sampleWorld).emitted
      = [{ owner := { handle := 0, context := [⟨"elapsed", .dur 300000000⟩], callerHooks := [9] },
           level := Level.warn, caller := none,
           fields := [⟨"slowSql", .str "SLOW SQL >= 200ms"⟩, ⟨"rows", .int64 3⟩],
           message := "UPDATE x" }]
    ∧ (logger.Trace lenientLogger sampleCtx 295000000 ⟨"SELECT 1", 0, 0⟩ (some ErrRecordNotFound)
        sampleWorld).emitted
      = [{ owner := { handle := 0, context := [⟨"elapsed", .dur 5000000⟩], callerHooks := [9] },
           level := Level.trace, caller := none, fields := [⟨"rows", .int64 0⟩],
           message := "SELECT 1" }]
    ∧ (logger.Trace sampleLogger sampleCtx 295000000 ⟨"SELECT 1", 0, 0⟩ (some ErrRecordNotFound)
        sampleWorld).emitted
      = [{ owner := { handle := 0, context := [⟨"elapsed", .dur 5000000⟩], callerHooks := [9] },
           level := Level.error, caller := none, fields := [⟨"rows", .int64 0⟩],
           message := "SELECT 1" }]
    ∧ (logger.Trace sampleLogger sampleCtx 295000000 ⟨"SELECT *", -1, 0⟩ none sampleWorld).emitted
      = [{ owner := { handle := 0, context := [⟨"elapsed", .dur 5000000⟩], callerHooks := [9] },
           level := Level.trace, caller := none, fields := [], message := "SELECT *" }] := by
  refine ⟨?_, ?_, ?_, ?_, ?_⟩ <;> decide

/-! ## The recorder -/

theorem recorder_Trace_value (r : traceRecorder) (ctx : Context) (begin : Int) (fc : ResultFn)
    (err : Option GoError) (w : World) :
    (r.Trace ctx begin fc err w).1 =
      { Interface := r.Interface, BeginAt := begin, SQL := fc.sql, RowsAffected := fc.rows,
        Err := err } := rfl

theorem recorder_Trace_emitted (r : traceRecorder) (ctx : Context) (begin : Int) (fc : ResultFn)
    (err : Option GoError) (w : World) :
    (r.Trace ctx begin fc err w).2.emitted = w.emitted := by
  simp [traceRecorder.Trace, ResultFn.call, World.emitted, List.filterMap_append]

theorem TraceAll_append (r : traceRecorder) (calls : List TraceCall) (c : TraceCall) (w : World) :
    r.TraceAll (calls ++ [c]) w =
      (r.TraceAll calls w).1.Trace c.ctx c.begin c.fc c.err (r.TraceAll calls w).2 := by
  simp [traceRecorder.TraceAll, List.foldl_append]

theorem TraceAll_frame (calls : List TraceCall) (r : traceRecorder) (w : World) :
    (r.TraceAll calls w).1.Interface = r.Interface
    ∧ (r.TraceAll calls w).2.emitted = w.emitted := by
  induction calls using List.reverseRecOn with
  | nil => exact ⟨rfl, rfl⟩
  | append_singleton calls c ih =>
    rw [TraceAll_append]
    exact ⟨by rw [recorder_Trace_value]; exact ih.1, by rw [recorder_Trace_emitted]; exact ih.2⟩

/-- C6: for every recorder state and every input, the recorder's Trace emits no
entry and leaves the recorder with BeginAt = begin, SQL and RowsAffected as the
callback returned them (-1 included), Err = err and the wrapped logger as it
was; the result does not depend on what was captured before, so after any
sequence of Trace calls the recorder holds the values of the last call alone,
and still nothing has been emitted. -/
theorem recorder_trace_last_write_wins (r : traceRecorder) (ctx : Context) (begin : Int)
    (fc : ResultFn) (err : Option GoError) (w : World) (calls : List TraceCall) :
    (r.Trace ctx begin fc err w).1 =
      { Interface := r.Interface, BeginAt := begin, SQL := fc.sql, RowsAffected := fc.rows,
        Err := err }
    ∧ (r.Trace ctx begin fc err w).2.emitted = w.emitted
    ∧ (∀ (b : Int) (s : String) (n : Int) (x : Option GoError),
        (traceRecorder.Trace { r with BeginAt := b, SQL := s, RowsAffected := n, Err := x }
          ctx begin fc err w).1 = (r.Trace ctx begin fc err w).1)
    ∧ (r.TraceAll (calls ++ [⟨ctx, begin, fc, err⟩]) w).1 = (r.Trace ctx begin fc err w).1
    ∧ (r.TraceAll (calls ++ [⟨ctx, begin, fc, err⟩]) w).2.emitted = w.emitted := by
  refine ⟨rfl, recorder_Trace_emitted r ctx begin fc err w, fun _ _ _ _ => rfl, ?_, ?_⟩
  · rw [TraceAll_append, recorder_Trace_value, recorder_Trace_value, (TraceAll_frame calls r w).1]
  · exact (TraceAll_frame _ r w).2

/-- C7: for every recorder `r` in memory, whatever it has captured, `r.New()`
yields a recorder at a new address whose wrapped logger is that of `r`, whose
BeginAt is the current time of the call and whose SQL is empty, RowsAffected 0
and Err nil; `r` is as it was, and a later Trace through the new pointer
succeeds and leaves `r` as it was. -/
theorem recorder_new_is_fresh (h : Heap) (a : Nat) (r : traceRecorder) (w : World)
    (ha : h[a]? = some r) :
    ∃ (p : Nat) (h1 : Heap) (w1 : World) (n : traceRecorder),
      Heap.New h a w = some (p, h1, w1)
      ∧ p ≠ a
      ∧ h1[p]? = some n
      ∧ n = { Interface := r.Interface, BeginAt := w.now, SQL := "", RowsAffected := 0,
              Err := none }
      ∧ h1[a]? = some r
      ∧ w1.emitted = w.emitted
      ∧ ∀ (ctx : Context) (begin : Int) (fc : ResultFn) (err : Option GoError) (w2 : World),
          ∃ (h2 : Heap) (w3 : World), Heap.Trace h1 p ctx begin fc err w2 = some (h2, w3)
            ∧ h2[a]? = some r
            ∧ h2[p]? = some { Interface := r.Interface, BeginAt := begin, SQL := fc.sql,
                              RowsAffected := fc.rows, Err := err } := by
  have hlt : a < h.length := by
    by_contra hge
    rw [List.getElem?_eq_none (not_lt.mp hge)] at ha
    cases ha
  have hne : h.length ≠ a := Nat.ne_of_gt hlt
  have hp : (h ++ [(r.New w).1])[h.length]? = some (r.New w).1 := by simp
  have hkeep : (h ++ [(r.New w).1])[a]? = some r := by
    rw [List.getElem?_append_left hlt]
    exact ha
  refine ⟨h.length, h ++ [(r.New w).1], (r.New w).2, (r.New w).1, ?_, hne, hp, rfl, hkeep, ?_, ?_⟩
  · simp [Heap.New, ha, Heap.alloc]
  · simp [traceRecorder.New, timeNow, World.emitted, List.filterMap_append]
  · intro ctx begin fc err w2
    refine ⟨(h ++ [(r.New w).1]).set h.length ((r.New w).1.Trace ctx begin fc err w2).1,
      ((r.New w).1.Trace ctx begin fc err w2).2, ?_, ?_, ?_⟩
    · simp [Heap.Trace]
    · rw [List.getElem?_set_ne hne]
      exact hkeep
    · rw [List.getElem?_set_self (by simp)]
      simp [recorder_Trace_value, traceRecorder.New]

/-- Witness of C7: a memory holding one used recorder, at address 0. -/
theorem recorder_new_is_fresh_witness :
    ([usedRecorder] : Heap)[0]? = some usedRecorder
    ∧ ∃ (p : Nat) (h1 : Heap) (w1 : World) (n : traceRecorder),
      Heap.New [usedRecorder] 0 sampleWorld = some (p, h1, w1)
      ∧ p ≠ 0
      ∧ h1[p]? = some n
      ∧ n = { Interface := usedRecorder.Interface, BeginAt := sampleWorld.now, SQL := "",
              RowsAffected := 0, Err := none }
      ∧ h1[0]? = some usedRecorder
      ∧ w1.emitted = sampleWorld.emitted
      ∧ ∀ (ctx : Context) (begin : Int) (fc : ResultFn) (err : Option GoError) (w2 : World),
          ∃ (h2 : Heap) (w3 : World), Heap.Trace h1 p ctx begin fc err w2 = some (h2, w3)
            ∧ h2[0]? = some usedRecorder
            ∧ h2[p]? = some { Interface := usedRecorder.Interface, BeginAt := begin,
                              SQL := fc.sql, RowsAffected := fc.rows, Err := err } :=
  ⟨rfl, recorder_new_is_fresh [usedRecorder] 0 usedRecorder sampleWorld rfl⟩

/-! ## Order of effects -/

theorem log_Msg (e : Event) (msg : String) (w : World) :
    (e.Msg msg w).log = w.log ++
      [.emit { owner := e.owner, level := e.level, caller := e.caller, fields := e.fields,
               message := msg }] := rfl

theorem callbackCount_of_log (w v : World) (fc : ResultFn) (pre post : List Effect)
    (hv : v.log = w.log ++ pre ++ [.callback fc.sql fc.rows] ++ post)
    (hpre : ∀ x ∈ pre, ∀ s n, x ≠ Effect.callback s n)
    (hpost : ∀ x ∈ post, ∀ s n, x ≠ Effect.callback s n) :
    v.callbackCount = w.callbackCount + 1 := by
  have hnil : ∀ xs : List Effect, (∀ x ∈ xs, ∀ s n, x ≠ Effect.callback s n) →
      xs.filter (fun x => match x with
        | .callback _ _ => true
        | _ => false) = [] := by
    intro xs hxs
    rw [List.filter_eq_nil_iff]
    intro x hx
    cases x with
    | callback s n => exact absurd rfl (hxs _ hx s n)
    | clockRead t => simp
    | emit e => simp
  simp [World.callbackCount, hv, List.filter_append, hnil pre hpre, hnil post hpost]

theorem trace_shape (l : logger) (ctx : Context) (begin : Int) (fc : ResultFn)
    (err : Option GoError) (w : World) :
    ∃ lo : Event,
      lo.owner = { handle := l.Logger.handle,
                   context := l.Logger.context ++ [⟨"elapsed", .dur (timeSub w.now begin)⟩],
                   callerHooks := l.Logger.callerHooks ++ [9] }
      ∧ logger.Trace l ctx begin fc err w = lo.Msg fc.sql (fc.call (timeSince begin w).2).2 := by
  unfold logger.Trace
  simp only []
  split_ifs <;> exact ⟨_, rfl, rfl⟩

/-- C8: one call of the adapter's Trace reads the clock, then invokes the
callback, then emits: the callback runs exactly once on every path, after the
elapsed time was taken, so that the elapsed duration of the entry is measured up
to the instant before the callback starts and does not change with the
callback's running time; one call of the recorder's Trace invokes the callback
exactly once as well. -/
theorem callback_invoked_once (l : logger) (r : traceRecorder) (ctx : Context) (begin : Int)
    (fc : ResultFn) (err : Option GoError) (w : World) :
    (∃ e : Entry, (logger.Trace l ctx begin fc err w).log =
        w.log ++ [.clockRead w.now, .callback fc.sql fc.rows, .emit e]
      ∧ e.owner.context = l.Logger.context ++ [⟨"elapsed", .dur (timeSub w.now begin)⟩])
    ∧ (logger.Trace l ctx begin fc err w).callbackCount = w.callbackCount + 1
    ∧ (logger.Trace l ctx begin fc err w).now = w.now + fc.cost
    ∧ (∀ c : Nat, (logger.Trace l ctx begin { fc with cost := c } err w).log
        = (logger.Trace l ctx begin fc err w).log)
    ∧ (r.Trace ctx begin fc err w).2.log = w.log ++ [.callback fc.sql fc.rows]
    ∧ (r.Trace ctx begin fc err w).2.callbackCount = w.callbackCount + 1 := by
  have hlog : ∃ e : Entry, (logger.Trace l ctx begin fc err w).log =
        w.log ++ [.clockRead w.now, .callback fc.sql fc.rows, .emit e]
      ∧ e.owner.context = l.Logger.context ++ [⟨"elapsed", .dur (timeSub w.now begin)⟩] := by
    obtain ⟨lo, ho, hw⟩ := trace_shape l ctx begin fc err w
    refine ⟨{ owner := lo.owner, level := lo.level, caller := lo.caller, fields := lo.fields,
              message := fc.sql }, ?_, by rw [ho]⟩
    rw [hw, log_Msg]
    simp [ResultFn.call, timeSince, timeNow]
  have hnow : (logger.Trace l ctx begin fc err w).now = w.now + fc.cost := by
    obtain ⟨lo, -, hw⟩ := trace_shape l ctx begin fc err w
    rw [hw]
    rfl
  have hrec : (r.Trace ctx begin fc err w).2.log = w.log ++ [.callback fc.sql fc.rows] := rfl
  refine ⟨hlog, ?_, hnow, ?_, hrec, ?_⟩
  · obtain ⟨e, he, -⟩ := hlog
    apply callbackCount_of_log w _ fc [.clockRead w.now] [.emit e]
    · simp [he]
    · intro x hx s n
      rw [List.mem_singleton] at hx
      rw [hx]
      exact fun hc => Effect.noConfusion hc
    · intro x hx s n
      rw [List.mem_singleton] at hx
      rw [hx]
      exact fun hc => Effect.noConfusion hc
  · intro c
    unfold logger.Trace
    simp only [ResultFn.call]
    split_ifs <;> rfl
  · apply callbackCount_of_log w _ fc [] []
    · simp [hrec]
    · intro x hx
      cases hx
    · intro x hx
      cases hx

/-! ## Info, Warn and Error -/

/-- C9: for every message and every list of data, Info, Warn and Error each emit
exactly one entry, at Info, Warning and Error severity respectively; the entry
has the message, one field named data holding the whole list, and the caller
recorded at skip depth 9; the three entries differ in nothing but the
severity, the context argument does not enter them, and nothing else happens
(the clock and the rest of the effect log are as before). -/
theorem info_warn_error_entries (l : logger) (ctx : Context) (msg : String)
    (data : List GoValue) (w : World) :
    l.Info ctx msg data w = { w with log := w.log ++ [.emit
        { owner := l.Logger, level := Level.info, caller := some 9,
          fields := [⟨"data", .iface data⟩], message := msg }] }
    ∧ l.Warn ctx msg data w = { w with log := w.log ++ [.emit
        { owner := l.Logger, level := Level.warn, caller := some 9,
          fields := [⟨"data", .iface data⟩], message := msg }] }
    ∧ l.Error ctx msg data w = { w with log := w.log ++ [.emit
        { owner := l.Logger, level := Level.error, caller := some 9,
          fields := [⟨"data", .iface data⟩], message := msg }] }
    ∧ (l.Info ctx msg data w).emitted = w.emitted ++
        [{ owner := l.Logger, level := Level.info, caller := some 9,
           fields := [⟨"data", .iface data⟩], message := msg }]
    ∧ (l.Warn ctx msg data w).emitted = w.emitted ++
        [{ owner := l.Logger, level := Level.warn, caller := some 9,
           fields := [⟨"data", .iface data⟩], message := msg }]
    ∧ (l.Error ctx msg data w).emitted = w.emitted ++
        [{ owner := l.Logger, level := Level.error, caller := some 9,
           fields := [⟨"data", .iface data⟩], message := msg }]
    ∧ (∀ ctx2 : Context, l.Info ctx2 msg data w = l.Info ctx msg data w
        ∧ l.Warn ctx2 msg data w = l.Warn ctx msg data w
        ∧ l.Error ctx2 msg data w = l.Error ctx msg data w) := by
  refine ⟨rfl, rfl, rfl, ?_, ?_, ?_, fun _ => ⟨rfl, rfl, rfl⟩⟩
  · unfold logger.Info
    rw [emitted_Msg]
    rfl
  · unfold logger.Warn
    rw [emitted_Msg]
    rfl
  · unfold logger.Error
    rw [emitted_Msg]
    rfl

/-! ## The record-not-found test is errors.Is -/

/-- C10 as stated fails: an error that wraps nothing, is not the
record-not-found error, and whose own method `Is` returns true for
`gorm.ErrRecordNotFound` has no record-not-found error in its chain, yet with
IgnoreRecordNotFoundError true `errors.Is` reports true for it and Trace emits
a trace-level entry, not an Error. -/
theorem trace_is_method_not_error :
    ErrRecordNotFound ∉ claimsNotFound.reach
    ∧ lenientLogger.IgnoreRecordNotFoundError = true
    ∧ errorsIs (some claimsNotFound) ErrRecordNotFound = true
    ∧ (logger.Trace lenientLogger sampleCtx 295000000 fastFc (some claimsNotFound)
        sampleWorld).emitted
      = [{ owner := { handle := 0, context := [⟨"elapsed", .dur 5000000⟩], callerHooks := [9] },
           level := Level.trace, caller := none, fields := [⟨"rows", .int64 1⟩],
           message := "SELECT 1" }]
    ∧ ¬ ∃ e : Entry, (logger.Trace lenientLogger sampleCtx 295000000 fastFc
          (some claimsNotFound) sampleWorld).emitted = sampleWorld.emitted ++ [e]
        ∧ e.level = Level.error := by
  have hem : (logger.Trace lenientLogger sampleCtx 295000000 fastFc (some claimsNotFound)
        sampleWorld).emitted
      = [{ owner := { handle := 0, context := [⟨"elapsed", .dur 5000000⟩], callerHooks := [9] },
           level := Level.trace, caller := none, fields := [⟨"rows", .int64 1⟩],
           message := "SELECT 1" }] := by decide
  refine ⟨by decide, by decide, by decide, hem, ?_⟩
  rintro ⟨e, he, hl⟩
  rw [hem] at he
  have h2 : e = { owner := { handle := 0, context := [⟨"elapsed", .dur 5000000⟩],
                             callerHooks := [9] },
                  level := Level.trace, caller := none, fields := [⟨"rows", .int64 1⟩],
                  message := "SELECT 1" } := by
    have h3 : sampleWorld.emitted = [] := rfl
    rw [h3, List.nil_append, List.cons.injEq] at he
    exact he.1.symm
  rw [h2] at hl
  cases hl

/-- C10, amended: the record-not-found test of Trace is `errors.Is`, not
equality. For an error that wraps the record-not-found error at any depth
(the error itself, a chain of `Unwrap() error`, or a tree of
`Unwrap() []error`): with IgnoreRecordNotFoundError true, Trace does exactly
what it does for `err = nil` and the entry is not at Error severity; with the
flag false the entry is at Error severity. For an error from which no error
reachable by unwrapping is the record-not-found error or has a method `Is`
that returns true for it, the entry is at Error severity under both
settings. -/
theorem trace_record_not_found_wrapped (l : logger) (ctx : Context) (begin : Int)
    (fc : ResultFn) (w : World) (err other : GoError) :
    (ErrRecordNotFound ∈ err.reach →
      (l.IgnoreRecordNotFoundError = true →
        logger.Trace l ctx begin fc (some err) w = logger.Trace l ctx begin fc none w
        ∧ ∃ e : Entry, (logger.Trace l ctx begin fc (some err) w).emitted = w.emitted ++ [e]
            ∧ e.level ≠ Level.error)
      ∧ (l.IgnoreRecordNotFoundError = false →
        ∃ e : Entry, (logger.Trace l ctx begin fc (some err) w).emitted = w.emitted ++ [e]
          ∧ e.level = Level.error))
    ∧ ((∀ x ∈ other.reach, x ≠ ErrRecordNotFound ∧ x.IsMethod ErrRecordNotFound = false) →
      ∃ e : Entry, (logger.Trace l ctx begin fc (some other) w).emitted = w.emitted ++ [e]
        ∧ e.level = Level.error) := by
  refine ⟨fun hmem => ⟨fun hig => ⟨?_, ?_⟩, fun hig => ?_⟩, fun hno => ?_⟩
  · have hw : errorsIs (some err) ErrRecordNotFound = true :=
      errorsIsLoop_of_mem_reach err ErrRecordNotFound hmem
    unfold logger.Trace
    simp only [hw, hig, Option.isSome_some, Option.isSome_none, Bool.not_true, Bool.or_self,
      Bool.and_false, Bool.false_and]
  · have hw : errorsIs (some err) ErrRecordNotFound = true :=
      errorsIsLoop_of_mem_reach err ErrRecordNotFound hmem
    obtain ⟨e, he, -, -, -, -, hok⟩ := trace_entry_spec l ctx begin fc (some err) w
    have h := hok (by simp [hw, hig])
    refine ⟨e, he, ?_⟩
    by_cases hs : timeSub w.now begin > l.SlowThreshold ∧ l.SlowThreshold ≠ 0
    · rw [(h.1 hs).1]
      decide
    · rw [(h.2 hs).1]
      decide
  · obtain ⟨e, he, -, -, -, herr, -⟩ := trace_entry_spec l ctx begin fc (some err) w
    exact ⟨e, he, (herr (by simp [hig])).1⟩
  · obtain ⟨e, he, -, -, -, herr, -⟩ := trace_entry_spec l ctx begin fc (some other) w
    have hf : errorsIs (some other) ErrRecordNotFound = false :=
      errorsIsLoop_eq_false other ErrRecordNotFound hno
    exact ⟨e, he, (herr (by simp [hf])).1⟩

/-- Witness of C10, amended: the record-not-found error under a wrapper inside
a joined error, and a plain error under one wrapper. -/
theorem trace_record_not_found_wrapped_witness :
    ErrRecordNotFound ∈ joinedNotFound.reach
    ∧ lenientLogger.IgnoreRecordNotFoundError = true
    ∧ sampleLogger.IgnoreRecordNotFoundError = false
    ∧ (∀ x ∈ plainWrapped.reach, x ≠ ErrRecordNotFound ∧ x.IsMethod ErrRecordNotFound = false)
    ∧ logger.Trace lenientLogger sampleCtx 0 sampleFc (some joinedNotFound) sampleWorld
        = logger.Trace lenientLogger sampleCtx 0 sampleFc none sampleWorld
    ∧ (∃ e : Entry, (logger.Trace sampleLogger sampleCtx 0 sampleFc (some joinedNotFound)
          sampleWorld).emitted = sampleWorld.emitted ++ [e] ∧ e.level = Level.error)
    ∧ (∃ e : Entry, (logger.Trace lenientLogger sampleCtx 0 sampleFc (some plainWrapped)
          sampleWorld).emitted = sampleWorld.emitted ++ [e] ∧ e.level = Level.error) :=
  ⟨by decide, by decide, by decide, by decide,
    (((trace_record_not_found_wrapped lenientLogger sampleCtx 0 sampleFc sampleWorld
      joinedNotFound plainWrapped).1 (by decide)).1 (by decide)).1,
    ((trace_record_not_found_wrapped sampleLogger sampleCtx 0 sampleFc sampleWorld
      joinedNotFound plainWrapped).1 (by decide)).2 (by decide),
    (trace_record_not_found_wrapped lenientLogger sampleCtx 0 sampleFc sampleWorld
      joinedNotFound plainWrapped).2 (by decide)⟩

end gormzerolog
